import Mathlib

/-!
Shallow embedding of the CrowdDynamics steering and motion core
(crowddynamics/core/steering/quickest_path.py and
crowddynamics/core/motion/adjusting.py), together with theorems checking
the natural-language specification of those modules against the code.

Conventions of the embedding:

- numpy floating point arrays become functions over exact numbers
  (rationals for the grid bookkeeping, reals where a square root or pi
  is involved);
- a numpy masked array is represented as a data function together with a
  boolean mask function, or as an Option-valued function where the claim
  only concerns the defined cells;
- a Python function that can raise becomes a function into Except;
- the external libraries called by the source (numpy, scipy, skimage,
  skfmm) are modelled by explicit definitions whose doc comments state
  the documented library behaviour they reproduce.
-/

namespace CrowdDyn

/-- Exceptions that can surface from the embedded code.  The constructors
zeroDivisionError (numpy arange with zero step), valueErrorNoContour
(skfmm.distance when the contour array has no zero contour) and
valueErrorEmptyPoints (scipy NearestNDInterpolator built from an empty
point set) reflect what the code actually raises.  Modelled from the spec:
the error taxonomy configurationError, unsolvableFieldError and
interpolationError named in the specification has no counterpart anywhere
in the source; the constructors exist here only so that statements about
the spec's taxonomy can be written down and compared with the code. -/
inductive PyException
  | zeroDivisionError
  | valueErrorNoContour
  | valueErrorEmptyPoints
  | configurationError
  | unsolvableFieldError
  | interpolationError
  deriving DecidableEq, Repr

/-- Truncation toward zero, the behaviour of numpy astype(int64) on a
float: floor for nonnegative arguments, ceiling for negative ones. -/
def truncate (q : ℚ) : ℤ := if 0 ≤ q then ⌊q⌋ else ⌈q⌉

/-- Model of numpy.arange start stop step: the arithmetic progression
start, start + step, ... of length max 0 (ceil ((stop - start) / step)).
This is the documented numpy length formula and is valid for positive and
negative step; step = 0 is never reached (arange raises, see meshgrid). -/
def arange (start stop step : ℚ) : List ℚ :=
  (List.range (⌈(stop - start) / step⌉).toNat).map (fun i : ℕ => start + (i : ℚ) * step)

/-- MeshGrid value from quickest_path.meshgrid.  The numpy meshgrid
matrices values = (X, Y) are determined by the two axes (X i j = x j and
Y i j = y i, indexing xy), so the embedding stores the axes, the shape
(rows, cols) = (y.length, x.length), the step and the bounds.  The
closure indicer captured by the namedtuple is the standalone function
indicer below, applied to the same step, minx, miny. -/
structure MeshGrid where
  x : List ℚ
  y : List ℚ
  shape : ℕ × ℕ
  step : ℚ
  bounds : ℚ × ℚ × ℚ × ℚ
  deriving DecidableEq, Repr

/-- quickest_path.meshgrid: builds the axes with numpy.arange using the
inclusive end points maxx + step and maxy + step.  The source performs no
validation of its arguments; the only failure is numpy's
ZeroDivisionError when step = 0.  In particular no ConfigurationError is
raised for negative step or inverted bounds. -/
def meshgrid (step minx miny maxx maxy : ℚ) : Except PyException MeshGrid :=
  if step = 0 then .error .zeroDivisionError
  else
    let xs := arange minx (maxx + step) step
    let ys := arange miny (maxy + step) step
    .ok { x := xs, y := ys, shape := (ys.length, xs.length), step := step,
          bounds := (minx, miny, maxx, maxy) }

/-- quickest_path.meshgrid.indicer: converts a position to grid indices by
shifting by the origin, dividing by the step and casting to int64, which
truncates toward zero.  Component order follows the source: the first
component indexes the x axis (column), the second the y axis (row). -/
def indicer (step minx miny : ℚ) (position : ℚ × ℚ) : ℤ × ℤ :=
  (truncate ((position.1 - minx) / step), truncate ((position.2 - miny) / step))

/- Distance map: quickest_path.distance_map.

The source builds a contour array (value 1.0 on cells rasterized from the
target geometry, -1.0 elsewhere) and a boolean obstacle mask, and hands
the masked contour to the external solver skfmm.distance.  The embedding
abstracts the rasterization (the geometry module is out of scope) by
taking the target cells and the obstacle cells directly as boolean
functions on indices, and models the external solver as documented by
scikit-fmm: skfmm.distance returns the signed distance from the zero
contour of phi (positive where phi is greater than 0, negative where phi
is less than 0), raises ValueError when phi contains no zero contour, and
keeps masked cells masked.  The distance propagation is modelled to first
order: a cell adjacent to a cell of opposite contour sign is initialised
with half a grid step (linear interpolation of the contour values 1 and
-1 locates the interface midway along the edge), and the distance then
propagates by repeated relaxation over the four-neighbour graph, masked
cells excluded.  This reproduces the library exactly on the
one-dimensional configurations used in the concrete theorems below, and
reproduces its sign and mask behaviour everywhere. -/

/-- In-bounds four-neighbourhood of the cell (i, j) on a rows by cols
grid, the stencil used by the first-order solver model. -/
def neighbors (rows cols i j : ℕ) : List (ℕ × ℕ) :=
  (if 0 < i then [(i - 1, j)] else []) ++
  (if i + 1 < rows then [(i + 1, j)] else []) ++
  (if 0 < j then [(i, j - 1)] else []) ++
  (if j + 1 < cols then [(i, j + 1)] else [])

/-- Whether the masked contour array has a zero contour: some unmasked
cell has an unmasked four-neighbour of opposite contour sign.  When this
fails, skfmm.distance raises ValueError (no zero contour). -/
def hasContour (rows cols : ℕ) (target mask : ℕ → ℕ → Bool) : Bool :=
  (List.range rows).any fun i => (List.range cols).any fun j =>
    !mask i j && (neighbors rows cols i j).any fun q =>
      !mask q.1 q.2 && (target q.1 q.2 != target i j)

/-- Addition of a step to a tentative distance; none stands for an
unreached cell (infinite tentative distance). -/
def oadd : Option ℚ → ℚ → Option ℚ
  | none, _ => none
  | some a, s => some (a + s)

/-- Minimum of two tentative distances, none standing for infinity. -/
def omin : Option ℚ → Option ℚ → Option ℚ
  | none, b => b
  | some a, none => some a
  | some a, some b => some (min a b)

/-- Initial tentative distances of the solver model: cells lying on the
zero contour (an unmasked cell with an unmasked four-neighbour of
opposite contour sign) start at step / 2, the distance from the cell
centre to the linearly interpolated interface; all other cells start
unreached; masked cells stay unreached forever. -/
def initDist (rows cols : ℕ) (step : ℚ) (target mask : ℕ → ℕ → Bool)
    (i j : ℕ) : Option ℚ :=
  if mask i j then none
  else if (neighbors rows cols i j).any (fun q =>
      !mask q.1 q.2 && (target q.1 q.2 != target i j)) then some (step / 2)
  else none

/-- One relaxation sweep of the solver model: each unmasked cell takes the
minimum of its own tentative distance and each four-neighbour's tentative
distance plus one grid step. -/
def relax (rows cols : ℕ) (step : ℚ) (mask : ℕ → ℕ → Bool)
    (d : ℕ → ℕ → Option ℚ) (i j : ℕ) : Option ℚ :=
  if mask i j then none
  else (neighbors rows cols i j).foldl
    (fun acc q => omin acc (oadd (d q.1 q.2) step)) (d i j)

/-- Tentative distances after k relaxation sweeps. -/
def distIter (rows cols : ℕ) (step : ℚ) (target mask : ℕ → ℕ → Bool) :
    ℕ → ℕ → ℕ → Option ℚ
  | 0 => initDist rows cols step target mask
  | k + 1 => relax rows cols step mask (distIter rows cols step target mask k)

/-- Per-cell value of the solver model: after rows * cols sweeps the
tentative distances are stable, and the signed distance carries the sign
of the contour value, positive on target cells and negative elsewhere
(the scikit-fmm sign convention).  Masked and unreached cells are none. -/
def signedDistance (rows cols : ℕ) (step : ℚ) (target mask : ℕ → ℕ → Bool)
    (i j : ℕ) : Option ℚ :=
  match distIter rows cols step target mask (rows * cols) i j with
  | none => none
  | some d => some (if target i j then d else -d)

/-- The solved field assembled in row-major order, none marking masked or
unreached cells. -/
def distanceGrid (rows cols : ℕ) (step : ℚ) (target mask : ℕ → ℕ → Bool) :
    List (List (Option ℚ)) :=
  (List.range rows).map fun i => (List.range cols).map fun j =>
    signedDistance rows cols step target mask i j

/-- quickest_path.distance_map: rasterizes targets into the contour and
obstacles into the mask, then calls skfmm.distance on the masked contour.
The call raises the library's ValueError when the contour array has no
zero contour (in particular whenever the target cell set is empty); the
source adds no check of its own and defines no error type of its own. -/
def distance_map (rows cols : ℕ) (step : ℚ) (target mask : ℕ → ℕ → Bool) :
    Except PyException (List (List (Option ℚ))) :=
  if hasContour rows cols target mask = true then
    .ok (distanceGrid rows cols step target mask)
  else .error .valueErrorNoContour

/- Direction map: quickest_path.direction_map.

The source computes u, v = numpy.gradient(dmap) (axis 0, then axis 1, of
the row-major array, unit spacing, central differences in the interior
and one-sided differences on the first and last row or column), the norm
l = hypot u v, replaces zero norms by nan so the division yields nan, and
returns the pair (v / l, u / l) in x, y component order.  The embedding
works cellwise on a totally defined scalar field (the claims about the
direction map quantify over defined cells) and returns none where the
source produces nan, that is where the gradient norm is zero. -/

/-- Model of numpy.gradient along axis 0 at cell (i, j) of an array with
n rows: one-sided difference on the first and last row, central
difference with spacing 2 in between. -/
noncomputable def du (S : ℕ → ℕ → ℝ) (n i j : ℕ) : ℝ :=
  if i = 0 then S 1 j - S 0 j
  else if i = n - 1 then S (n - 1) j - S (n - 2) j
  else (S (i + 1) j - S (i - 1) j) / 2

/-- Model of numpy.gradient along axis 1 at cell (i, j) of an array with
m columns. -/
noncomputable def dv (S : ℕ → ℕ → ℝ) (m i j : ℕ) : ℝ :=
  if j = 0 then S i 1 - S i 0
  else if j = m - 1 then S i (m - 1) - S i (m - 2)
  else (S i (j + 1) - S i (j - 1)) / 2

/-- quickest_path.direction_map, cellwise: the pair (v / l, u / l) where
l is the gradient norm, and none (nan in the source) where l = 0.  Note
the source returns the gradient components divided by the norm with no
negation. -/
noncomputable def direction_map (S : ℕ → ℕ → ℝ) (n m i j : ℕ) : Option (ℝ × ℝ) :=
  if Real.sqrt (du S n i j ^ 2 + dv S m i j ^ 2) = 0 then none
  else some (dv S m i j / Real.sqrt (du S n i j ^ 2 + dv S m i j ^ 2),
             du S n i j / Real.sqrt (du S n i j ^ 2 + dv S m i j ^ 2))

/-- The direction map the specification describes, written from the
spec's words for comparison with the code: the negated normalized
gradient -grad S / norm (grad S), with the same discrete gradient and the
same undefinedness at zero gradient norm. -/
noncomputable def direction_map_spec (S : ℕ → ℕ → ℝ) (n m i j : ℕ) :
    Option (ℝ × ℝ) :=
  if Real.sqrt (du S n i j ^ 2 + dv S m i j ^ 2) = 0 then none
  else some (-(dv S m i j / Real.sqrt (du S n i j ^ 2 + dv S m i j ^ 2)),
             -(du S n i j / Real.sqrt (du S n i j ^ 2 + dv S m i j ^ 2)))

/- Field repair: quickest_path.fill_missing.

The source takes the exclude mask, the meshgrid and the direction map
(u, v), both components masked arrays sharing the mask u.mask.  It
collects the boundary cells with skimage find_boundaries (u.mask, mode
outer, default connectivity 1): the unmasked cells four-adjacent to a
masked cell.  It builds a scipy NearestNDInterpolator over the world
coordinates of those cells (row-major order, as boolean indexing of a
numpy array is) carrying their u and v values, then assigns
u[mask2] and v[mask2] from the interpolators, where
mask2 = logical_xor (mask, u.mask).  Assigning into a masked array
unmasks the assigned cells.  The embedding is generic in the type of the
cell payload (the source moves the stored values around without
arithmetic on them); instantiating the payload with a pair models the u
and v components, which the source fills from the same nearest boundary
cell since the two interpolators share the same point set and queries. -/

/-- Boundary cells of skimage find_boundaries (mask, mode outer,
connectivity 1): the unmasked cells with a masked four-neighbour, listed
in row-major order. -/
def boundaryList (rows cols : ℕ) (umask : ℕ → ℕ → Bool) : List (ℕ × ℕ) :=
  ((List.range rows).map fun i =>
    ((List.range cols).filter fun j =>
      !umask i j && (neighbors rows cols i j).any fun q => umask q.1 q.2).map
        fun j => (i, j)).flatten

/-- World coordinates of the centre of cell (i, j): the meshgrid stores
x j = minx + j * step and y i = miny + i * step. -/
def cellCoord (minx miny step : ℚ) (p : ℕ × ℕ) : ℚ × ℚ :=
  (minx + p.2 * step, miny + p.1 * step)

/-- Squared euclidean distance between the world coordinates of two
cells, the metric of the scipy nearest-neighbour query (comparing squared
distances orders points exactly as comparing distances). -/
def dist2 (minx miny step : ℚ) (p q : ℕ × ℕ) : ℚ :=
  ((cellCoord minx miny step p).1 - (cellCoord minx miny step q).1) ^ 2 +
  ((cellCoord minx miny step p).2 - (cellCoord minx miny step q).2) ^ 2

/-- Nearest cell to p among a list of cells, the first one at minimal
squared distance; the scipy query returns a point at minimal distance.
The default (0, 0) for the empty list is never used: the source raises
before querying when the point set is empty. -/
def nearestIn (minx miny step : ℚ) (p : ℕ × ℕ) : List (ℕ × ℕ) → ℕ × ℕ
  | [] => (0, 0)
  | b :: t => t.foldl (fun best q =>
      if dist2 minx miny step p q < dist2 minx miny step p best then q else best) b

/-- The cells fill_missing assigns: logical_xor of the exclude mask and
the field mask. -/
def fillTouched (exmask umask : ℕ → ℕ → Bool) (i j : ℕ) : Bool :=
  Bool.xor (exmask i j) (umask i j)

/-- Mask of the direction map after fill_missing: assigned cells become
unmasked, all other cells keep their mask. -/
def fillMask (exmask umask : ℕ → ℕ → Bool) (i j : ℕ) : Bool :=
  if fillTouched exmask umask i j then false else umask i j

/-- Data of the direction map after fill_missing: each assigned cell
receives the payload of the boundary cell nearest to it, every other cell
keeps its payload. -/
def fillData {α : Type} (rows cols : ℕ) (minx miny step : ℚ)
    (exmask umask : ℕ → ℕ → Bool) (udata : ℕ → ℕ → α) (i j : ℕ) : α :=
  if fillTouched exmask umask i j then
    udata (nearestIn minx miny step (i, j) (boundaryList rows cols umask)).1
          (nearestIn minx miny step (i, j) (boundaryList rows cols umask)).2
  else udata i j

/-- quickest_path.fill_missing: raises the scipy ValueError when there are
no boundary cells to interpolate from, otherwise returns the repaired
mask and data.  The source mutates u and v in place; the embedding
returns the new field. -/
def fill_missing {α : Type} (rows cols : ℕ) (minx miny step : ℚ)
    (exmask umask : ℕ → ℕ → Bool) (udata : ℕ → ℕ → α) :
    Except PyException ((ℕ → ℕ → Bool) × (ℕ → ℕ → α)) :=
  if (boundaryList rows cols umask).isEmpty then .error .valueErrorEmptyPoints
  else .ok (fillMask exmask umask, fillData rows cols minx miny step exmask umask udata)

/- Motion: crowddynamics/core/motion/adjusting.py -/

/-- adjusting.force_adjust: (mass / tau_adj) * (v0 * e0 - v) with e0 and v
two-dimensional vectors, taken componentwise. -/
def force_adjust (mass tau_adj v0 : ℚ) (e0 v : ℚ × ℚ) : ℚ × ℚ :=
  (mass / tau_adj * (v0 * e0.1 - v.1), mass / tau_adj * (v0 * e0.2 - v.2))

/-- Modelled from the spec: crowddynamics.core.vector.wrap_to_pi is
imported by adjusting.py but its module is not part of the given sources.
The specification states that the angular error is wrapped into the
interval from -pi to pi; this definition realises that wrapping by
subtracting the appropriate multiple of 2 * pi. -/
noncomputable def wrap_to_pi (theta : ℝ) : ℝ :=
  theta - 2 * Real.pi * ⌊(theta + Real.pi) / (2 * Real.pi)⌋

/-- adjusting.torque_adjust: inertia_rot / tau_rot *
(wrap_to_pi (phi_0 - phi) / pi * omega_0 - omega). -/
noncomputable def torque_adjust (inertia_rot tau_rot phi_0 phi omega_0 omega : ℝ) : ℝ :=
  inertia_rot / tau_rot * (wrap_to_pi (phi_0 - phi) / Real.pi * omega_0 - omega)

/- Concrete fixtures used by the closed theorems below. -/

/-- One-row grid with three columns whose first cell is the target. -/
def tgt0 : ℕ → ℕ → Bool := fun _ j => j == 0

/-- Empty obstacle mask. -/
def msk0 : ℕ → ℕ → Bool := fun _ _ => false

/-- Scalar field on a three by three grid increasing along the x axis. -/
noncomputable def exS : ℕ → ℕ → ℝ := fun _ j => (j : ℝ)

/-- Direction-field mask with the two cells (0, 0) and (1, 0) undefined. -/
def um0 : ℕ → ℕ → Bool := fun i j => (i == 0 && j == 0) || (i == 1 && j == 0)

/-- Exclude mask holding only the defined cell (2, 2). -/
def exm0 : ℕ → ℕ → Bool := fun i j => i == 2 && j == 2

/-- Exclude mask holding only the undefined cell (1, 0), so that it is
contained in the undefined set of um0. -/
def exm1 : ℕ → ℕ → Bool := fun i j => i == 1 && j == 0

/-- Direction-field data for the three by three fixture. -/
def ud0 : ℕ → ℕ → ℚ × ℚ := fun i j =>
  if i == 1 && j == 1 then (7, 0)
  else if i == 2 && j == 2 then (42, 0)
  else if i == 0 && j == 1 then (1, 0)
  else if i == 2 && j == 0 then (2, 0)
  else (9, 9)

/-- Constant unit direction-field data. -/
noncomputable def udC : ℕ → ℕ → Option (ℝ × ℝ) := fun _ _ => some (1, 0)

/-- The grid meshgrid builds for step 1 on the box from (0, 0) to (2, 2). -/
def gW : MeshGrid :=
  { x := [0, 1, 2], y := [0, 1, 2], shape := (3, 3), step := 1,
    bounds := (0, 0, 2, 2) }

/- Helper lemmas. -/

/-- Truncation of a rational strictly between -1 and 0 is 0, because the
int64 cast rounds toward zero. -/
theorem truncate_eq_zero_of_neg {q : ℚ} (h1 : -1 < q) (h2 : q < 0) :
    truncate q = 0 := by
  rw [truncate, if_neg (not_le.mpr h2)]
  exact Int.ceil_eq_zero_iff.mpr ⟨h1, h2.le⟩

/-- Truncation of a rational in the unit interval is 0. -/
theorem truncate_eq_zero_of_nonneg {q : ℚ} (h1 : 0 ≤ q) (h2 : q < 1) :
    truncate q = 0 := by
  rw [truncate, if_pos h1]
  exact Int.floor_eq_zero_iff.mpr ⟨h1, h2⟩

/-- Truncation of a natural number is itself. -/
theorem truncate_natCast (c : ℕ) : truncate (c : ℚ) = (c : ℤ) := by
  rw [truncate, if_pos (by positivity)]
  exact_mod_cast Int.floor_natCast c

/-- Element i of arange is start + i * step. -/
theorem arange_get (start stop step : ℚ) (i : Fin (arange start stop step).length) :
    (arange start stop step).get i = start + (i : ℚ) * step := by
  rcases i with ⟨i, hi⟩
  simp only [arange, List.get_eq_getElem]
  rw [List.getElem_map, List.getElem_range]

/-- Lower bound through omin: if both tentative distances are bounded
below by c wherever defined, so is their minimum. -/
theorem omin_lb {c : ℚ} {a b : Option ℚ}
    (ha : ∀ x, a = some x → c ≤ x) (hb : ∀ x, b = some x → c ≤ x) :
    ∀ x, omin a b = some x → c ≤ x := by
  intro x hx
  cases a with
  | none => exact hb x hx
  | some av =>
    cases b with
    | none => exact ha x hx
    | some bv =>
      have hx' : min av bv = x := by simpa [omin] using hx
      calc c ≤ min av bv := le_min (ha av rfl) (hb bv rfl)
        _ = x := hx'

/-- Lower bound through oadd: adding a nonnegative step preserves a lower
bound on a tentative distance. -/
theorem oadd_lb {c s : ℚ} {o : Option ℚ} (hs : 0 ≤ s)
    (ho : ∀ x, o = some x → c ≤ x) : ∀ x, oadd o s = some x → c ≤ x := by
  intro x hx
  cases o with
  | none => simp [oadd] at hx
  | some a =>
    have hx' : a + s = x := by simpa [oadd] using hx
    have := ho a rfl
    linarith

/-- Lower bound through the relaxation fold of the solver model. -/
theorem foldl_omin_lb {c s : ℚ} (hs : 0 ≤ s) (d : ℕ → ℕ → Option ℚ)
    (hd : ∀ a b x, d a b = some x → c ≤ x) :
    ∀ (l : List (ℕ × ℕ)) (init : Option ℚ), (∀ x, init = some x → c ≤ x) →
    ∀ x, (l.foldl (fun acc q => omin acc (oadd (d q.1 q.2) s)) init) = some x → c ≤ x := by
  intro l
  induction l with
  | nil => intro init hinit x hx; exact hinit x hx
  | cons q t ih =>
    intro init hinit x hx
    rw [List.foldl_cons] at hx
    exact ih _ (omin_lb hinit (oadd_lb hs (fun y hy => hd q.1 q.2 y hy))) x hx

/-- Every defined initial tentative distance is at least half a step. -/
theorem initDist_lb {rows cols : ℕ} {step : ℚ} {target mask : ℕ → ℕ → Bool}
    (i j : ℕ) : ∀ x, initDist rows cols step target mask i j = some x → step / 2 ≤ x := by
  intro x hx
  unfold initDist at hx
  split_ifs at hx
  · exact le_of_eq (Option.some.inj hx)

/-- Masked cells stay unreached through every sweep. -/
theorem distIter_masked {rows cols : ℕ} {step : ℚ} {target mask : ℕ → ℕ → Bool}
    {i j : ℕ} (hm : mask i j = true) :
    ∀ k, distIter rows cols step target mask k i j = none := by
  intro k
  cases k with
  | zero => simp [distIter, initDist, hm]
  | succ k => simp [distIter, relax, hm]

/-- Every defined tentative distance is at least half a step after any
number of sweeps. -/
theorem distIter_lb {rows cols : ℕ} {step : ℚ} {target mask : ℕ → ℕ → Bool}
    (hs : 0 ≤ step) :
    ∀ (k i j : ℕ) x, distIter rows cols step target mask k i j = some x → step / 2 ≤ x := by
  intro k
  induction k with
  | zero => intro i j x hx; exact initDist_lb i j x hx
  | succ k ih =>
    intro i j x hx
    rw [distIter] at hx
    unfold relax at hx
    split_ifs at hx
    exact foldl_omin_lb hs _ (fun a b y hy => ih a b y hy) _ _ (fun y hy => ih i j y hy) x hx

/-- Value of the solver model at the target cell of the one-row fixture:
positive half step, not zero. -/
theorem sd00 : signedDistance 1 3 1 tgt0 msk0 0 0 = some (1 / 2) := by
  norm_num [signedDistance, distIter, relax, initDist, neighbors, omin, oadd, tgt0, msk0,
    min_def, List.foldl_cons, List.foldl_nil]

/-- Value of the solver model at the first non-target cell of the one-row
fixture: negative. -/
theorem sd01 : signedDistance 1 3 1 tgt0 msk0 0 1 = some (-(1 / 2)) := by
  norm_num [signedDistance, distIter, relax, initDist, neighbors, omin, oadd, tgt0, msk0,
    min_def, List.foldl_cons, List.foldl_nil]

/-- Value of the solver model at the far cell of the one-row fixture. -/
theorem sd02 : signedDistance 1 3 1 tgt0 msk0 0 2 = some (-(3 / 2)) := by
  norm_num [signedDistance, distIter, relax, initDist, neighbors, omin, oadd, tgt0, msk0,
    min_def, List.foldl_cons, List.foldl_nil]

/-- The grid built by meshgrid on the box from (0, 0) to (2, 2) with
step 1. -/
theorem meshgrid_gW : meshgrid 1 0 0 2 2 = .ok gW := by
  rw [meshgrid, if_neg (by norm_num : ¬(1 : ℚ) = 0)]
  have hx : arange 0 (2 + 1) 1 = [0, 1, 2] := by
    have h3 : (⌈(((2 : ℚ) + 1) - 0) / 1⌉).toNat = 3 := by
      have h : (⌈(((2 : ℚ) + 1) - 0) / 1⌉) = 3 := by norm_num
      rw [h]
      rfl
    rw [arange, h3]
    norm_num [List.range_succ]
  simp only [hx]
  rfl

/- Claim theorems. -/

/-- C2 counterexample: on a one-row grid with three columns, step 1, the
single target cell (0, 0) and no obstacles, the solved field is 1/2 on
the target cell (the claim demands 0) and -1/2 on the reachable
non-target cell (0, 1) (the claim demands a strictly positive value): the
solver returns a signed distance, not an arrival time. -/
theorem c2_counterexample :
    distance_map 1 3 1 tgt0 msk0 =
      .ok [[some (1 / 2), some (-(1 / 2)), some (-(3 / 2))]] ∧
    tgt0 0 0 = true ∧ signedDistance 1 3 1 tgt0 msk0 0 0 = some (1 / 2) ∧
    ((1 : ℚ) / 2 ≠ 0) ∧
    tgt0 0 1 = false ∧ msk0 0 1 = false ∧
    signedDistance 1 3 1 tgt0 msk0 0 1 = some (-(1 / 2)) ∧
    ¬(0 < (-(1 / 2) : ℚ)) := by
  refine ⟨?_, by decide, sd00, by norm_num, by decide, by decide, sd01, by norm_num⟩
  have hc : hasContour 1 3 tgt0 msk0 = true := by decide
  simp [distance_map, hc, distanceGrid, List.range_succ, sd00, sd01, sd02]

/-- C2 amended: for every grid with positive step, the solved field is
undefined on every obstacle cell, strictly positive (at least half a
step, never 0) on every target cell it reaches, and strictly negative on
every reachable non-target cell: the external solver returns the signed
distance to the boundary of the target region, positive inside targets
and negative outside, rather than a field that is 0 at targets and
positive elsewhere. -/
theorem c2_signed_distance_field (rows cols : ℕ) (step : ℚ)
    (target mask : ℕ → ℕ → Bool) (hstep : 0 < step) :
    (hasContour rows cols target mask = true →
      distance_map rows cols step target mask =
        .ok (distanceGrid rows cols step target mask)) ∧
    (∀ i j, mask i j = true →
      signedDistance rows cols step target mask i j = none) ∧
    (∀ i j x, target i j = true →
      signedDistance rows cols step target mask i j = some x → 0 < x) ∧
    (∀ i j x, target i j = false →
      signedDistance rows cols step target mask i j = some x → x < 0) := by
  refine ⟨fun h => by simp [distance_map, h], ?_, ?_, ?_⟩
  · intro i j hm
    simp [signedDistance, distIter_masked hm]
  · intro i j x ht hx
    unfold signedDistance at hx
    cases hd : distIter rows cols step target mask (rows * cols) i j with
    | none => rw [hd] at hx; simp at hx
    | some dd =>
      rw [hd] at hx
      simp [ht] at hx
      have := distIter_lb hstep.le (rows * cols) i j dd hd
      linarith
  · intro i j x ht hx
    unfold signedDistance at hx
    cases hd : distIter rows cols step target mask (rows * cols) i j with
    | none => rw [hd] at hx; simp at hx
    | some dd =>
      rw [hd] at hx
      simp [ht] at hx
      have := distIter_lb hstep.le (rows * cols) i j dd hd
      linarith

/-- C2 witness: the amended theorem applied to the one-row fixture, its
hypotheses discharged concretely. -/
theorem c2_witness :
    (0 : ℚ) < 1 ∧
    signedDistance 1 3 1 tgt0 msk0 0 0 = some (1 / 2) ∧ (0 : ℚ) < 1 / 2 ∧
    signedDistance 1 3 1 tgt0 msk0 0 1 = some (-(1 / 2)) ∧ (-(1 / 2) : ℚ) < 0 := by
  have h := c2_signed_distance_field 1 3 1 tgt0 msk0 (by norm_num)
  exact ⟨by norm_num, sd00, h.2.2.1 0 0 (1 / 2) (by decide) sd00,
    sd01, h.2.2.2 0 1 (-(1 / 2)) (by decide) sd01⟩

/-- C6: on every grid returned by meshgrid with positive step and
non-inverted bounds, converting a lattice point back through indicer
recovers its indices: the first (x axis) component of the index pair is
the column and the second the row. -/
theorem c6_roundtrip (step minx miny maxx maxy : ℚ) (g : MeshGrid)
    (hstep : 0 < step) (hx : minx ≤ maxx) (hy : miny ≤ maxy)
    (hg : meshgrid step minx miny maxx maxy = .ok g)
    (c : Fin g.x.length) (r : Fin g.y.length) :
    indicer step minx miny (g.x.get c, g.y.get r) = ((c : ℤ), (r : ℤ)) := by
  rw [meshgrid, if_neg (ne_of_gt hstep)] at hg
  injection hg with hg
  subst hg
  rw [indicer, arange_get, arange_get]
  have h1 : (minx + (c : ℚ) * step - minx) / step = (c : ℚ) := by
    field_simp
  have h2 : (miny + (r : ℚ) * step - miny) / step = (r : ℚ) := by
    field_simp
  rw [h1, h2]
  rw [truncate_natCast, truncate_natCast]

/-- C6 witness: the round trip on the grid over the box from (0, 0) to
(2, 2) with step 1, at column 2 and row 1. -/
theorem c6_witness :
    (0 : ℚ) < 1 ∧
    indicer 1 0 0 (gW.x.get ⟨2, by decide⟩, gW.y.get ⟨1, by decide⟩) = (2, 1) := by
  refine ⟨by norm_num, ?_⟩
  have h := c6_roundtrip 1 0 0 2 2 gW (by norm_num) (by norm_num) (by norm_num)
    meshgrid_gW ⟨2, by decide⟩ ⟨1, by decide⟩
  simpa using h

/-- C5 counterexample: with step 1 and minX = 1 greater than maxX = 0 the
claim demands ConfigurationError, but meshgrid returns a grid (with an
empty x axis) and raises nothing. -/
theorem c5_counterexample :
    (0 : ℚ) < 1 ∧ (0 : ℚ) < 1 ∧
    meshgrid 1 1 0 0 0 =
      .ok { x := [], y := [0], shape := (1, 0), step := 1, bounds := (1, 0, 0, 0) } ∧
    (Except.ok { x := [], y := [0], shape := (1, 0), step := 1, bounds := (1, 0, 0, 0) }
      ≠ (Except.error .configurationError : Except PyException MeshGrid)) := by
  refine ⟨by norm_num, by norm_num, ?_, by intro h; cases h⟩
  rw [meshgrid, if_neg (by norm_num : ¬(1 : ℚ) = 0)]
  have hx : arange 1 (0 + 1) 1 = [] := by
    norm_num [arange]
  have hy : arange 0 (0 + 1) 1 = [0] := by
    norm_num [arange, List.range_succ]
  simp only [hx, hy]
  rfl

/-- C5 amended: meshgrid performs no validation of its arguments.  For
every step other than 0 (including negative steps and inverted bounds) it
returns a grid, possibly with empty axes; no ConfigurationError exists in
the code, and only step = 0 raises (numpy's ZeroDivisionError). -/
theorem c5_meshgrid_no_validation (step minx miny maxx maxy : ℚ)
    (h : step ≠ 0) :
    ∃ g, meshgrid step minx miny maxx maxy = .ok g :=
  ⟨_, by rw [meshgrid, if_neg h]⟩

/-- C5 witness: the amended theorem applied at the concrete input of the
counterexample. -/
theorem c5_witness : (1 : ℚ) ≠ 0 ∧ ∃ g, meshgrid 1 1 0 0 0 = .ok g :=
  ⟨by norm_num, c5_meshgrid_no_validation 1 1 0 0 0 (by norm_num)⟩

/-- C4 counterexample: with an empty target set on a one by two grid the
solve raises the external library's ValueError (no zero contour), which
is not the UnsolvableFieldError the claim names; no such error class
exists in the code. -/
theorem c4_counterexample :
    distance_map 1 2 1 (fun _ _ => false) (fun _ _ => false) =
      .error .valueErrorNoContour ∧
    PyException.valueErrorNoContour ≠ PyException.unsolvableFieldError := by
  refine ⟨rfl, by intro h; cases h⟩

/-- C4 amended: for every grid and obstacle set, invoking the solve with
an empty target cell set raises the external solver's ValueError (the
contour array has no zero contour) and returns no field; the code never
raises an UnsolvableFieldError, which does not exist in it. -/
theorem c4_empty_targets_value_error (rows cols : ℕ) (step : ℚ)
    (mask : ℕ → ℕ → Bool) :
    distance_map rows cols step (fun _ _ => false) mask =
      .error .valueErrorNoContour := by
  have h : hasContour rows cols (fun _ _ => false) mask = false := by
    simp [hasContour]
  rw [distance_map, h]
  rfl

/-- C8: the adjusting force is (mass / tauAdj) * (v0 * e0 - v)
componentwise, and at mass 2, tauAdj 1/2, v0 1, e0 (1, 0), v (0, 0) it
equals (4, 0). -/
theorem c8_force_adjust :
    (∀ (mass tau_adj v0 : ℚ) (e0 v : ℚ × ℚ), 0 < tau_adj →
      force_adjust mass tau_adj v0 e0 v =
        (mass / tau_adj * (v0 * e0.1 - v.1), mass / tau_adj * (v0 * e0.2 - v.2))) ∧
    force_adjust 2 (1 / 2) 1 (1, 0) (0, 0) = (4, 0) := by
  refine ⟨fun mass tau_adj v0 e0 v _ => rfl, by norm_num [force_adjust]⟩

/-- C8 witness: the componentwise formula instantiated at the concrete
input of the spec's example, with the positivity hypothesis discharged. -/
theorem c8_witness :
    (0 : ℚ) < 1 / 2 ∧
    force_adjust 2 (1 / 2) 1 (1, 0) (0, 0) =
      ((2 : ℚ) / (1 / 2) * (1 * 1 - 0), (2 : ℚ) / (1 / 2) * (1 * 0 - 0)) ∧
    force_adjust 2 (1 / 2) 1 (1, 0) (0, 0) = (4, 0) :=
  ⟨by norm_num, c8_force_adjust.1 2 (1 / 2) 1 (1, 0) (0, 0) (by norm_num),
   c8_force_adjust.2⟩

/-- C10: the coordinate-to-index conversion truncates toward zero, so for
every grid with positive step an x coordinate in the open interval
(minX - step, minX) lands in column 0, the same column as coordinates in
the half-open interval from minX to minX + step, and likewise for y and
row 0. -/
theorem c10_truncation_alias (step minx miny xb xi yb yi ox oy : ℚ)
    (hstep : 0 < step)
    (hxb1 : minx - step < xb) (hxb2 : xb < minx)
    (hxi1 : minx ≤ xi) (hxi2 : xi < minx + step)
    (hyb1 : miny - step < yb) (hyb2 : yb < miny)
    (hyi1 : miny ≤ yi) (hyi2 : yi < miny + step) :
    (indicer step minx miny (xb, oy)).1 = 0 ∧
    (indicer step minx miny (xi, oy)).1 = 0 ∧
    (indicer step minx miny (ox, yb)).2 = 0 ∧
    (indicer step minx miny (ox, yi)).2 = 0 := by
  refine ⟨truncate_eq_zero_of_neg ?_ ?_, truncate_eq_zero_of_nonneg ?_ ?_,
          truncate_eq_zero_of_neg ?_ ?_, truncate_eq_zero_of_nonneg ?_ ?_⟩
  · rw [lt_div_iff₀ hstep]; linarith
  · exact div_neg_of_neg_of_pos (by linarith) hstep
  · exact div_nonneg (by linarith) hstep.le
  · rw [div_lt_one hstep]; linarith
  · rw [lt_div_iff₀ hstep]; linarith
  · exact div_neg_of_neg_of_pos (by linarith) hstep
  · exact div_nonneg (by linarith) hstep.le
  · rw [div_lt_one hstep]; linarith

/-- C10 witness: on the grid with origin (5, 7) and step 1, the position
x = 9/2 just below the origin and the position x = 5 on the origin both
map to column 0, and likewise y = 13/2 and y = 7 map to row 0. -/
theorem c10_witness :
    (0 : ℚ) < 1 ∧
    (indicer 1 5 7 (9 / 2, 20)).1 = 0 ∧ (indicer 1 5 7 (5, 20)).1 = 0 ∧
    (indicer 1 5 7 (20, 13 / 2)).2 = 0 ∧ (indicer 1 5 7 (20, 7)).2 = 0 := by
  obtain ⟨a, b, c, d⟩ := c10_truncation_alias 1 5 7 (9 / 2) 5 (13 / 2) 7 20 20
    (by norm_num) (by norm_num) (by norm_num) (by norm_num) (by norm_num)
    (by norm_num) (by norm_num) (by norm_num) (by norm_num)
  exact ⟨by norm_num, a, b, c, d⟩

/-- The first minimiser of f found by a left fold belongs to the folded
list (initial element included) and minimises f over it. -/
theorem foldl_nearest {σ : Type} (f : σ → ℚ) :
    ∀ (l : List σ) (a : σ),
      (l.foldl (fun best q => if f q < f best then q else best) a) ∈ a :: l ∧
      ∀ x ∈ a :: l, f (l.foldl (fun best q => if f q < f best then q else best) a) ≤ f x := by
  intro l
  induction l with
  | nil =>
    intro a
    simp only [List.foldl_nil]
    refine ⟨List.mem_cons_self a [], ?_⟩
    intro x hx
    rcases List.mem_cons.mp hx with h | h
    · rw [h]
    · exact absurd h (List.not_mem_nil x)
  | cons q t ih =>
    intro a
    rw [List.foldl_cons]
    by_cases h : f q < f a
    · rw [if_pos h]
      obtain ⟨mem, hmin⟩ := ih q
      refine ⟨List.mem_cons_of_mem a mem, ?_⟩
      intro x hx
      rcases List.mem_cons.mp hx with rfl | hx2
      · exact le_trans (hmin q (List.mem_cons_self q t)) h.le
      · exact hmin x hx2
    · rw [if_neg h]
      obtain ⟨mem, hmin⟩ := ih a
      refine ⟨?_, ?_⟩
      · rcases List.mem_cons.mp mem with h2 | h2
        · rw [h2]; exact List.mem_cons_self a _
        · exact List.mem_cons_of_mem a (List.mem_cons_of_mem q h2)
      · intro x hx
        rcases List.mem_cons.mp hx with rfl | hx2
        · exact hmin x (List.mem_cons_self x t)
        · rcases List.mem_cons.mp hx2 with rfl | hx3
          · exact le_trans (hmin a (List.mem_cons_self a t)) (not_lt.mp h)
          · exact hmin x (List.mem_cons_of_mem a hx3)

/-- The cell nearestIn picks from a non-empty list belongs to the list
and minimises the squared distance to the query point over it. -/
theorem nearestIn_spec (minx miny step : ℚ) (p : ℕ × ℕ) (l : List (ℕ × ℕ)) (hl : l ≠ []) :
    nearestIn minx miny step p l ∈ l ∧
    ∀ q ∈ l, dist2 minx miny step p (nearestIn minx miny step p l) ≤
      dist2 minx miny step p q := by
  match l with
  | [] => exact absurd rfl hl
  | b :: t => exact foldl_nearest (fun q => dist2 minx miny step p q) t b

/-- Every boundary cell is unmasked, so its payload is a defined value of
the field being repaired. -/
theorem boundaryList_umask {rows cols : ℕ} {umask : ℕ → ℕ → Bool} {p : ℕ × ℕ}
    (hp : p ∈ boundaryList rows cols umask) : umask p.1 p.2 = false := by
  simp only [boundaryList, List.mem_flatten, List.mem_map] at hp
  obtain ⟨l, ⟨i, hi, rfl⟩, hpl⟩ := hp
  simp only [List.mem_map, List.mem_filter] at hpl
  obtain ⟨j, ⟨hj, hcond⟩, rfl⟩ := hpl
  simp at hcond
  exact hcond.1

/-- C3 counterexample: on the three by three fixture, the cell (2, 2)
lies in the exclude mask but is defined in the field; because the source
assigns at the logical xor of the two masks, repair overwrites its value
(42, 0) with the value (7, 0) of the nearest boundary cell instead of
leaving it untouched. -/
theorem c3_counterexample :
    exm0 2 2 = true ∧ um0 2 2 = false ∧ ud0 2 2 = (42, 0) ∧
    fillData 3 3 0 0 1 exm0 um0 ud0 2 2 = (7, 0) ∧
    ((7 : ℚ), (0 : ℚ)) ≠ ((42 : ℚ), (0 : ℚ)) ∧
    fill_missing 3 3 0 0 1 exm0 um0 ud0 =
      .ok (fillMask exm0 um0, fillData 3 3 0 0 1 exm0 um0 ud0) := by
  have hbl : boundaryList 3 3 um0 = [(0, 1), (1, 1), (2, 0)] := by decide
  have hne : (boundaryList 3 3 um0).isEmpty = false := by decide
  refine ⟨by decide, by decide, by norm_num [ud0], ?_, by norm_num, ?_⟩
  · have ht : fillTouched exm0 um0 2 2 = true := by decide
    rw [fillData, if_pos ht, hbl]
    norm_num [nearestIn, dist2, cellCoord, List.foldl_cons, List.foldl_nil, ud0]
  · rw [fill_missing, hne]
    rfl

/-- C3 amended: the repair assigns exactly the cells where the exclude
mask and the undefined set differ.  Under the additional hypothesis that
the exclude mask is contained in the undefined set (which holds in the
compositor when the unbuffered obstacle cells lie inside the buffered
obstacle mask), every exclude-mask cell is left untouched (it stays
undefined with its data unchanged) and every undefined cell outside the
exclude mask becomes defined with the value of its nearest boundary cell;
without that containment a defined exclude-mask cell is overwritten, as
the counterexample shows. -/
theorem c3_fill_missing_contract {α : Type} (rows cols : ℕ) (minx miny step : ℚ)
    (exmask umask : ℕ → ℕ → Bool) (udata : ℕ → ℕ → α)
    (hsub : ∀ i j, exmask i j = true → umask i j = true)
    (hbl : boundaryList rows cols umask ≠ []) :
    fill_missing rows cols minx miny step exmask umask udata =
      .ok (fillMask exmask umask, fillData rows cols minx miny step exmask umask udata) ∧
    (∀ i j, exmask i j = true →
      fillMask exmask umask i j = umask i j ∧
      fillData rows cols minx miny step exmask umask udata i j = udata i j) ∧
    (∀ i j, umask i j = true → exmask i j = false →
      fillMask exmask umask i j = false ∧
      nearestIn minx miny step (i, j) (boundaryList rows cols umask) ∈
        boundaryList rows cols umask ∧
      fillData rows cols minx miny step exmask umask udata i j =
        udata (nearestIn minx miny step (i, j) (boundaryList rows cols umask)).1
              (nearestIn minx miny step (i, j) (boundaryList rows cols umask)).2 ∧
      ∀ q ∈ boundaryList rows cols umask,
        dist2 minx miny step (i, j)
            (nearestIn minx miny step (i, j) (boundaryList rows cols umask)) ≤
          dist2 minx miny step (i, j) q) := by
  refine ⟨?_, ?_, ?_⟩
  · have h : (boundaryList rows cols umask).isEmpty = false := by
      cases hb : boundaryList rows cols umask with
      | nil => exact absurd hb hbl
      | cons a t => rfl
    rw [fill_missing, h]
    rfl
  · intro i j hex
    have hum := hsub i j hex
    have ht : fillTouched exmask umask i j = false := by
      simp [fillTouched, hex, hum]
    exact ⟨by rw [fillMask, if_neg (by simp [ht])],
           by rw [fillData, if_neg (by simp [ht])]⟩
  · intro i j hum hex
    have ht : fillTouched exmask umask i j = true := by
      simp [fillTouched, hex, hum]
    obtain ⟨hmem, hmin⟩ := nearestIn_spec minx miny step (i, j) _ hbl
    exact ⟨by rw [fillMask, if_pos (by simp [ht])], hmem,
           by rw [fillData, if_pos (by simp [ht])], hmin⟩

/-- C3 witness: with the exclude mask exm1 contained in the undefined set
of um0, the excluded cell (1, 0) keeps its mask and data, and the
undefined non-excluded cell (0, 0) becomes defined. -/
theorem c3_witness :
    fillMask exm1 um0 1 0 = um0 1 0 ∧
    fillData 3 3 0 0 1 exm1 um0 ud0 1 0 = ud0 1 0 ∧
    fillMask exm1 um0 0 0 = false := by
  have hsub : ∀ i j, exm1 i j = true → um0 i j = true := by
    intro i j h
    simp [exm1] at h
    simp [um0, h.1, h.2]
  have h := c3_fill_missing_contract 3 3 0 0 1 exm1 um0 ud0 hsub
    (by decide)
  obtain ⟨h1, h2⟩ := h.2.1 1 0 (by decide)
  exact ⟨h1, h2, (h.2.2 0 0 (by decide) (by decide)).1⟩

/-- Value of the direction map on the linear fixture field at the
interior cell (1, 1): the positive unit x direction. -/
theorem direction_map_exS : direction_map exS 3 3 1 1 = some (1, 0) := by
  have hu : du exS 3 1 1 = 0 := by
    rw [du]
    norm_num [exS]
  have hv : dv exS 3 1 1 = 1 := by
    rw [dv]
    norm_num [exS]
  rw [direction_map, hu, hv]
  have h1 : (0 : ℝ) ^ 2 + 1 ^ 2 = 1 := by norm_num
  rw [h1, Real.sqrt_one]
  norm_num

/-- Value of the spec's negated normalized gradient on the same fixture
and cell: the negative unit x direction. -/
theorem direction_map_spec_exS : direction_map_spec exS 3 3 1 1 = some (-1, 0) := by
  have hu : du exS 3 1 1 = 0 := by
    rw [du]
    norm_num [exS]
  have hv : dv exS 3 1 1 = 1 := by
    rw [dv]
    norm_num [exS]
  rw [direction_map_spec, hu, hv]
  have h1 : (0 : ℝ) ^ 2 + 1 ^ 2 = 1 := by norm_num
  rw [h1, Real.sqrt_one]
  norm_num

/-- C1 counterexample: on the scalar field increasing along x, the code's
direction map at the interior cell (1, 1) is (1, 0) while the
specification's negated normalized gradient is (-1, 0): the source does
not negate the normalized gradient. -/
theorem c1_counterexample :
    direction_map exS 3 3 1 1 = some (1, 0) ∧
    direction_map_spec exS 3 3 1 1 = some (-1, 0) ∧
    (some ((1 : ℝ), (0 : ℝ)) : Option (ℝ × ℝ)) ≠ some ((-1 : ℝ), (0 : ℝ)) := by
  refine ⟨direction_map_exS, direction_map_spec_exS, ?_⟩
  intro h
  have h2 := Option.some.inj h
  have h1 : (1 : ℝ) = -1 := congrArg Prod.fst h2
  norm_num at h1

/-- C1 amended: at every cell the direction map the code produces is the
pointwise negation of the negated normalized gradient the specification
describes, that is the un-negated normalized gradient grad S divided by
its norm; both are undefined exactly where the gradient norm is zero.
(The pipeline still steers toward targets because the solved field is a
signed distance that is negative away from targets and grows toward
them, so its positive gradient points at the target.) -/
theorem c1_unnegated_gradient (S : ℕ → ℕ → ℝ) (n m i j : ℕ) :
    direction_map S n m i j =
      (direction_map_spec S n m i j).map (fun w => (-w.1, -w.2)) := by
  rw [direction_map, direction_map_spec]
  split_ifs with hl
  · rfl
  · simp

/-- C7: every defined cell of the direction map is a unit vector (the
squared components sum to exactly 1 in the real-number embedding), and
the repair stage preserves this: if every defined cell of the field being
repaired is a unit vector, so is every defined cell of the repaired
field, undefined cells carrying no direction in both stages. -/
theorem c7_unit_magnitude :
    (∀ (S : ℕ → ℕ → ℝ) (n m i j : ℕ) (w : ℝ × ℝ),
      direction_map S n m i j = some w → w.1 ^ 2 + w.2 ^ 2 = 1) ∧
    (∀ (rows cols : ℕ) (minx miny step : ℚ) (exmask umask : ℕ → ℕ → Bool)
      (udata : ℕ → ℕ → Option (ℝ × ℝ)),
      boundaryList rows cols umask ≠ [] →
      (∀ i j w, umask i j = false → udata i j = some w → w.1 ^ 2 + w.2 ^ 2 = 1) →
      ∀ i j w, fillMask exmask umask i j = false →
        fillData rows cols minx miny step exmask umask udata i j = some w →
        w.1 ^ 2 + w.2 ^ 2 = 1) := by
  constructor
  · intro S n m i j w hw
    rw [direction_map] at hw
    split_ifs at hw with hl
    have hw2 := Option.some.inj hw
    have hnn : (0 : ℝ) ≤ du S n i j ^ 2 + dv S m i j ^ 2 := by positivity
    have hsq : Real.sqrt (du S n i j ^ 2 + dv S m i j ^ 2) ^ 2 =
        du S n i j ^ 2 + dv S m i j ^ 2 := Real.sq_sqrt hnn
    have hne : du S n i j ^ 2 + dv S m i j ^ 2 ≠ 0 := by
      intro h0
      exact hl (by rw [h0, Real.sqrt_zero])
    rw [← hw2]
    show (dv S m i j / Real.sqrt (du S n i j ^ 2 + dv S m i j ^ 2)) ^ 2 +
        (du S n i j / Real.sqrt (du S n i j ^ 2 + dv S m i j ^ 2)) ^ 2 = 1
    rw [div_pow, div_pow, hsq, div_add_div_same, add_comm (dv S m i j ^ 2),
      div_self hne]
  · intro rows cols minx miny step exmask umask udata hbl hunit i j w hm hd
    rw [fillData] at hd
    split_ifs at hd with ht
    · have hmem := (nearestIn_spec minx miny step (i, j) _ hbl).1
      have hb := boundaryList_umask hmem
      exact hunit _ _ w hb hd
    · have hum : umask i j = false := by
        rw [fillMask, if_neg ht] at hm
        exact hm
      exact hunit i j w hum hd

/-- C7 witness: the gradient-stage invariant at the interior cell of the
linear fixture, and the repair-stage invariant on the constant unit field
at the repaired cell (0, 0), with all hypotheses discharged concretely. -/
theorem c7_witness :
    direction_map exS 3 3 1 1 = some (1, 0) ∧
    ((1 : ℝ)) ^ 2 + ((0 : ℝ)) ^ 2 = 1 ∧
    fillMask exm1 um0 0 0 = false ∧
    fillData 3 3 0 0 1 exm1 um0 udC 0 0 = some (1, 0) ∧
    (((1 : ℝ), (0 : ℝ)).1 ^ 2 + ((1 : ℝ), (0 : ℝ)).2 ^ 2 = 1) := by
  have hfd : fillData 3 3 0 0 1 exm1 um0 udC 0 0 = some (1, 0) := by
    rw [fillData]
    split_ifs <;> rfl
  have h1 := c7_unit_magnitude.1 exS 3 3 1 1 (1, 0) direction_map_exS
  have hunit : ∀ i j w, um0 i j = false → udC i j = some w →
      w.1 ^ 2 + w.2 ^ 2 = 1 := by
    intro i j w _ hw
    rw [← Option.some.inj hw]
    norm_num
  have h2 := c7_unit_magnitude.2 3 3 0 0 1 exm1 um0 udC (by decide) hunit 0 0 (1, 0)
    (by decide) hfd
  exact ⟨direction_map_exS, by simpa using h1, by decide, hfd, h2⟩

/-- Wrapping the angle 0 changes nothing. -/
theorem wrap_to_pi_zero : wrap_to_pi 0 = 0 := by
  rw [wrap_to_pi]
  have h : ((0 : ℝ) + Real.pi) / (2 * Real.pi) = 1 / 2 := by
    rw [zero_add]
    rw [div_eq_div_iff (by positivity) (by norm_num : (2:ℝ) ≠ 0)]
    ring
  rw [h]
  norm_num

/-- Wrapping the angular error 0 - pi/2 changes nothing: it already lies
in the target interval. -/
theorem wrap_to_pi_neg_half : wrap_to_pi (0 - Real.pi / 2) = -(Real.pi / 2) := by
  rw [wrap_to_pi]
  have h : ((0 - Real.pi / 2) + Real.pi) / (2 * Real.pi) = 1 / 4 := by
    rw [div_eq_div_iff (by positivity) (by norm_num : (4:ℝ) ≠ 0)]
    ring
  rw [h]
  norm_num

/-- Wrapping the angular error 0 - (-pi/2) changes nothing either. -/
theorem wrap_to_pi_pos_half : wrap_to_pi (0 - -(Real.pi / 2)) = Real.pi / 2 := by
  rw [wrap_to_pi]
  have h : ((0 - -(Real.pi / 2)) + Real.pi) / (2 * Real.pi) = 3 / 4 := by
    rw [div_eq_div_iff (by positivity) (by norm_num : (4:ℝ) ≠ 0)]
    ring
  rw [h]
  norm_num

/-- C9: the adjusting torque is (inertiaRot / tauRot) *
(wrapToPi (phi0 - phi) / pi * omega0 - omega); it vanishes at the spec's
first example, and at phi = pi/2 (other arguments unchanged) the result
is -1 while negating phi flips it to 1. -/
theorem c9_torque_adjust :
    (∀ inertia_rot tau_rot phi_0 phi omega_0 omega : ℝ, 0 < tau_rot →
      torque_adjust inertia_rot tau_rot phi_0 phi omega_0 omega =
        inertia_rot / tau_rot * (wrap_to_pi (phi_0 - phi) / Real.pi * omega_0 - omega)) ∧
    torque_adjust 1 (1 / 2) 0 0 1 0 = 0 ∧
    torque_adjust 1 (1 / 2) 0 (Real.pi / 2) 1 0 = -1 ∧
    torque_adjust 1 (1 / 2) 0 (-(Real.pi / 2)) 1 0 = 1 := by
  have hpi := Real.pi_ne_zero
  refine ⟨fun _ _ _ _ _ _ _ => rfl, ?_, ?_, ?_⟩
  · rw [torque_adjust]
    rw [show (0 : ℝ) - 0 = 0 by norm_num, wrap_to_pi_zero]
    norm_num
  · rw [torque_adjust, wrap_to_pi_neg_half]
    have h : -(Real.pi / 2) / Real.pi = -(1 / 2) := by
      field_simp
      ring
    rw [h]
    norm_num
  · rw [torque_adjust, wrap_to_pi_pos_half]
    have h : Real.pi / 2 / Real.pi = 1 / 2 := by
      field_simp
      ring
    rw [h]
    norm_num

/-- C9 witness: the torque formula applied at the spec's concrete
example, the positivity hypothesis discharged. -/
theorem c9_witness :
    (0 : ℝ) < 1 / 2 ∧
    torque_adjust 1 (1 / 2) 0 0 1 0 =
      1 / (1 / 2) * (wrap_to_pi (0 - 0) / Real.pi * 1 - 0) ∧
    torque_adjust 1 (1 / 2) 0 0 1 0 = 0 :=
  ⟨by norm_num, c9_torque_adjust.1 1 (1 / 2) 0 0 1 0 (by norm_num),
   c9_torque_adjust.2.1⟩

end CrowdDyn
